import Mathlib

/-!
Shallow embedding of the xiaozhi-esp32-server Go backend core:
the llm and tts provider registries, the mock LLM provider, and the
per-connection conversation state machine of
go_backend/internal/conversation/state.go.

Conventions: Go durations are modelled in milliseconds as Nat; byte
payloads as List Nat; the websocket connection is modelled by the list of
Actions a handler emits, in emission order.  Connection writes are assumed
to succeed (write errors are only logged in the source and do not change
state).
-/

/-- ListenState from internal/models/messages.go: idle, listening, thinking, speaking. -/
inductive ListenState where
  | idle
  | listening
  | thinking
  | speaking
deriving DecidableEq

/-- Model of Go strings.Contains: containment of one rune sequence in another. -/
def goContains (s substr : String) : Bool :=
  decide (List.IsInfix substr.data s.data)

/-- Model of Go strings.ToLower, applied rune by rune (the runes appearing in the
source are ASCII letters and CJK characters, on which this agrees with Go). -/
def goToLower (s : String) : String :=
  String.mk (s.data.map Char.toLower)

/-- Generic fixed-size chunking loop: models the Go pattern
`for i := 0; i < len(xs); i += chunkSize` taking `xs[i:min(i+chunkSize,len)]`
each iteration.  Both call sites in the source use a positive chunk size;
size 0 is mapped to the empty chunk list. -/
def chunkLoop {α : Type} (n : Nat) (l : List α) : List (List α) :=
  if h : n = 0 then []
  else
    match l with
    | [] => []
    | x :: xs => (x :: xs).take n :: chunkLoop n ((x :: xs).drop n)
termination_by l.length
decreasing_by
  simp only [List.length_drop, List.length_cons]
  omega

namespace LLM

/-- Message from the llm package (metadata map omitted: it is opaque to all
embedded logic). -/
structure Message where
  role : String
  content : String
deriving DecidableEq

/-- Response of Provider.Chat (metadata omitted as above). -/
structure Response where
  content : String
  finishReason : String
deriving DecidableEq

/-- ResponseChunk of Provider.StreamChat; FinishReason's Go zero value is "". -/
structure ResponseChunk where
  content : String
  finishReason : String := ""
  isFinal : Bool
deriving DecidableEq

/-- The two llm package error values ErrProviderNotFound / ErrNotInitialized. -/
inductive LLMErr where
  | providerNotFound
  | notInitialized
deriving DecidableEq

/-- LLMManager: provider map (association list with unique keys, modelling the
Go map), the ready flag set by a successful Initialize, and the default name.
The provider instances are opaque, hence the type parameter. -/
structure LLMManager (α : Type) where
  providers : List (String × α)
  initialized : Bool
  defaultProvider : String

/-- Go map insert providers[name] = p on the association-list model. -/
def insertProvider {α : Type} (ps : List (String × α)) (name : String) (p : α) :
    List (String × α) :=
  match ps with
  | [] => [(name, p)]
  | kv :: rest => if kv.1 = name then (name, p) :: rest else kv :: insertProvider rest name p

/-- Go map read providers[name] on the association-list model. -/
def lookupProvider {α : Type} (ps : List (String × α)) (name : String) : Option α :=
  match ps with
  | [] => none
  | kv :: rest => if kv.1 = name then some kv.2 else lookupProvider rest name

/-- LLMManager.RegisterProvider: insert or replace; the first registration
(empty default name) selects the default. -/
def LLMManager.registerProvider {α : Type} (m : LLMManager α) (name : String) (p : α) :
    LLMManager α :=
  { m with
    providers := insertProvider m.providers name p
    defaultProvider := if m.defaultProvider = "" then name else m.defaultProvider }

/-- LLMManager.Chat, registry level: the message/options arguments are forwarded
unchanged to the provider, so on success the model returns the provider instance
the call dispatches to. -/
def LLMManager.chat {α : Type} (m : LLMManager α) : Except LLMErr α :=
  if m.initialized = false then Except.error LLMErr.notInitialized
  else
    match lookupProvider m.providers m.defaultProvider with
    | none => Except.error LLMErr.providerNotFound
    | some p => Except.ok p

/-- LLMManager.StreamChat, registry level (same dispatch logic as Chat). -/
def LLMManager.streamChat {α : Type} (m : LLMManager α) : Except LLMErr α :=
  if m.initialized = false then Except.error LLMErr.notInitialized
  else
    match lookupProvider m.providers m.defaultProvider with
    | none => Except.error LLMErr.providerNotFound
    | some p => Except.ok p

/-- LLMManager.GetProvider: a plain map lookup; the source performs no
initialization check here. -/
def LLMManager.getProvider {α : Type} (m : LLMManager α) (name : String) :
    Except LLMErr α :=
  match lookupProvider m.providers name with
  | none => Except.error LLMErr.providerNotFound
  | some p => Except.ok p

/-- MockProvider from internal/llm/mock_provider.go. -/
structure MockProvider where
  initialized : Bool
  name : String

/-- The backwards scan in MockProvider.Chat / StreamChat for the last
user-role message; "" when there is none. -/
def lastUserMessage (messages : List Message) : String :=
  match messages.reverse.find? (fun m => m.role == "user") with
  | some m => m.content
  | none => ""

/-- generateMockResponse from mock_provider.go.  The two clock-dependent
branches interpolate time.Now(); those formatted strings enter as the
nowClock / nowDate arguments. -/
def generateMockResponse (nowClock nowDate : String) (userMessage : String) : String :=
  let m := goToLower userMessage
  if goContains m "你好" || goContains m "hello" || goContains m "hi" then
    "你好！我是一个模拟的语音助手模型。我可以帮助你回答问题、提供信息或者与你聊天。有什么我可以帮助你的吗？"
  else if goContains m "你是谁" || goContains m "你的名字" then
    "我是一个模拟的语音助手模型，用于测试语音交互系统。我不是真正的AI助手，只是为了开发测试而创建的简单模拟程序。"
  else if goContains m "时间" || goContains m "几点" then
    "现在的时间是 " ++ nowClock ++ "。请注意，这是一个模拟响应，实际时间可能不准确。"
  else if goContains m "日期" || goContains m "今天" then
    "今天是 " ++ nowDate ++ "。请注意，这是一个模拟响应，仅用于测试。"
  else if goContains m "天气" then
    "今天天气晴朗，温度约25°C左右。不过请注意，这只是一个模拟的天气回答，不是真实的天气信息。"
  else
    "这是一个模拟的响应，用于测试语音交互系统。在实际部署中，这里会返回真实的AI助手生成的内容。你的消息已收到，但我只能提供有限的预设回答。"

/-- Whether generateMockResponse would take one of its two clock-dependent
branches on this user message (branch order as in the source). -/
def usesClock (userMessage : String) : Bool :=
  let m := goToLower userMessage
  if goContains m "你好" || goContains m "hello" || goContains m "hi" then false
  else if goContains m "你是谁" || goContains m "你的名字" then false
  else if goContains m "时间" || goContains m "几点" then true
  else if goContains m "日期" || goContains m "今天" then true
  else false

/-- splitIntoChunks from mock_provider.go: chunk the rune sequence; a
non-positive chunk size returns the whole text as a single chunk. -/
def splitIntoChunks (text : String) (chunkSize : Nat) : List String :=
  if chunkSize = 0 then [text]
  else (chunkLoop chunkSize text.data).map String.mk

/-- The chunk sequence StreamChat hands to its callback, in order: isFinal
(and finishReason "stop") exactly on the chunk at index len-1. -/
def streamChunks (content : String) : List ResponseChunk :=
  let chunks := splitIntoChunks content 10
  chunks.enum.map fun ic =>
    { content := ic.2
      isFinal := ic.1 == chunks.length - 1
      finishReason := if ic.1 == chunks.length - 1 then "stop" else "" }

/-- MockProvider.Chat (the response_time metadata is omitted with the
metadata map). -/
def MockProvider.chat (p : MockProvider) (nowClock nowDate : String)
    (messages : List Message) : Except LLMErr Response :=
  if p.initialized = false then Except.error LLMErr.notInitialized
  else
    Except.ok
      { content := generateMockResponse nowClock nowDate (lastUserMessage messages)
        finishReason := "stop" }

/-- MockProvider.StreamChat, with the callback invocations represented by the
list of chunks passed to it, in call order (the callback is assumed to return
nil, as the conversation loop's callback does). -/
def MockProvider.streamChat (p : MockProvider) (nowClock nowDate : String)
    (messages : List Message) : Except LLMErr (List ResponseChunk) :=
  if p.initialized = false then Except.error LLMErr.notInitialized
  else
    Except.ok (streamChunks (generateMockResponse nowClock nowDate (lastUserMessage messages)))

end LLM

namespace TTS

/-- The two tts package error values ErrProviderNotFound / ErrNotInitialized. -/
inductive TTSErr where
  | providerNotFound
  | notInitialized
deriving DecidableEq

/-- TTSManager from internal/tts/client.go, same shape as LLMManager. -/
structure TTSManager (α : Type) where
  providers : List (String × α)
  initialized : Bool
  defaultProvider : String

/-- TTSManager.RegisterProvider. -/
def TTSManager.registerProvider {α : Type} (m : TTSManager α) (name : String) (p : α) :
    TTSManager α :=
  { m with
    providers := LLM.insertProvider m.providers name p
    defaultProvider := if m.defaultProvider = "" then name else m.defaultProvider }

/-- TTSManager.GetProvider: an empty name falls back to the default name; no
initialization check is performed. -/
def TTSManager.getProvider {α : Type} (m : TTSManager α) (name : String) :
    Except TTSErr α :=
  let name := if name = "" then m.defaultProvider else name
  match LLM.lookupProvider m.providers name with
  | none => Except.error TTSErr.providerNotFound
  | some p => Except.ok p

/-- TTSManager.SynthesizeSpeech, registry level: on success the model returns
the provider instance the synthesis call dispatches to. -/
def TTSManager.synthesizeSpeech {α : Type} (m : TTSManager α) : Except TTSErr α :=
  if m.initialized = false then Except.error TTSErr.notInitialized
  else
    match LLM.lookupProvider m.providers m.defaultProvider with
    | none => Except.error TTSErr.providerNotFound
    | some p => Except.ok p

end TTS

/-! The conversation state machine (internal/conversation/state.go).
Wrapped in namespace Conv (Mathlib already has a top-level `Action`). -/

namespace Conv

/-- The observable effects a handler produces on the connection (writes, in
order) plus the goroutine spawn of processUserText and the pacing sleeps. -/
inductive Action where
  | listenNotice (st : ListenState)
  | listeningStartMsg
  | textResponse (text : String)
  | audioEcho (data : List Nat)
  | audioChunkSend (data : List Nat)
  | delayMs (n : Nat)
  | spawnProcessText (text : String)
deriving DecidableEq

/-- ConversationManager's mutable per-session state.  The connection, locks,
stop channel, and the llm/tts manager handles are external; a round's backend
interaction enters via LLMOutcome / TTSOutcome below. -/
structure Session where
  currentState : ListenState
  audioFrameCount : Nat
  totalAudioBytes : Nat
  lastAudioTime : Nat
  silenceDuration : Nat
  minAudioFrames : Nat
  chatHistory : List LLM.Message
  deviceID : String
  clientID : String
deriving DecidableEq

/-- The system prompt installed by NewConversationManager. -/
def systemPrompt : String :=
  "你是一个友好的语音助手，请简短、清晰地回答用户问题。回应应直接、有帮助，避免不必要的冗长解释。"

/-- NewConversationManager's initial session (session creation instant taken
as time 0). -/
def initialSession (deviceID clientID : String) : Session :=
  { currentState := ListenState.idle
    audioFrameCount := 0
    totalAudioBytes := 0
    lastAudioTime := 0
    silenceDuration := 1500
    minAudioFrames := 20
    chatHistory := [{ role := "system", content := systemPrompt }]
    deviceID := deviceID
    clientID := clientID }

/-- The fixed recognized-speech placeholder text of processUserSpeech. -/
def recognizedSpeechText : String :=
  "这是模拟的语音识别结果，实际应用中应对音频进行真实的语音识别。"

/-- The fixed apology text substituted on a generation-backend error. -/
def apologyText : String :=
  "抱歉，我暂时无法回答您的问题。请稍后再试。"

/-- HandleBinaryMessage at time now: update the audio statistics, enter
Listening from Idle (emitting the listening-start message), echo the frame. -/
def handleBinaryMessage (now : Nat) (data : List Nat) (s : Session) :
    Session × List Action :=
  let s1 := { s with
    audioFrameCount := s.audioFrameCount + 1
    totalAudioBytes := s.totalAudioBytes + data.length
    lastAudioTime := now }
  if s1.currentState = ListenState.idle then
    ({ s1 with currentState := ListenState.listening },
      [Action.listeningStartMsg, Action.audioEcho data])
  else
    (s1, [Action.audioEcho data])

/-- processUserSpeech: send the thinking notice, enter Thinking, spawn
processUserText on the fixed recognized text. -/
def processUserSpeech (s : Session) : Session × List Action :=
  ({ s with currentState := ListenState.thinking },
    [Action.listenNotice ListenState.thinking,
     Action.spawnProcessText recognizedSpeechText])

/-- Parse outcome of one inbound text frame as HandleTextMessage sees it:
json.Unmarshal failure; a JSON object without a string "type" field; or a JSON
object with its type and the fields the handler reads ("text", "device_id",
"client_id", each absent or a string). -/
inductive TextFrame where
  | invalidJson
  | jsonNoType
  | jsonMsg (msgType : String) (textField deviceField clientField : Option String)
deriving DecidableEq

/-- processClientHello: fill deviceID / clientID from the message only when
they are still empty. -/
def processClientHello (deviceField clientField : Option String) (s : Session) : Session :=
  let s1 :=
    if s.deviceID = "" then
      match deviceField with
      | some d => { s with deviceID := d }
      | none => s
    else s
  if s1.clientID = "" then
    match clientField with
    | some c => { s1 with clientID := c }
    | none => s1
  else s1

/-- HandleTextMessage.  Non-JSON frames, frames without a string type, and
unrecognized types are ignored (the Go function always returns a nil error). -/
def handleTextMessage (msg : TextFrame) (s : Session) : Session × List Action :=
  match msg with
  | TextFrame.invalidJson => (s, [])
  | TextFrame.jsonNoType => (s, [])
  | TextFrame.jsonMsg msgType textField deviceField clientField =>
    if msgType = "hello" then
      (processClientHello deviceField clientField s, [])
    else if msgType = "listening_start" then
      ({ s with
          audioFrameCount := 0
          totalAudioBytes := 0
          currentState := ListenState.listening }, [])
    else if msgType = "listening_stop" then
      if s.minAudioFrames ≤ s.audioFrameCount then processUserSpeech s
      else ({ s with currentState := ListenState.idle }, [])
    else if msgType = "text" then
      match textField with
      | some txt =>
        if txt ≠ "" then
          ({ s with currentState := ListenState.thinking },
            [Action.listenNotice ListenState.thinking, Action.spawnProcessText txt])
        else (s, [])
      | none => (s, [])
    else (s, [])

/-- How the LLM side of one processUserText round went: no manager configured
(a random canned response is used); StreamChat returned an error; StreamChat
succeeded but the follow-up Chat call returned an error; or Chat succeeded
with this content. -/
inductive LLMOutcome where
  | noManager (randomResponse : String)
  | streamingError
  | chatError
  | chatSuccess (content : String)
deriving DecidableEq

/-- How the TTS side of one processUserText round went. -/
inductive TTSOutcome where
  | noManager
  | synthesisError
  | synthesized (audio : List Nat)
deriving DecidableEq

/-- The response text processUserText settles on for a given LLM outcome. -/
def llmRoundResponse (outcome : LLMOutcome) : String :=
  match outcome with
  | LLMOutcome.noManager r => r
  | LLMOutcome.streamingError => apologyText
  | LLMOutcome.chatError => apologyText
  | LLMOutcome.chatSuccess c => c

/-- The user message processUserText appends for the given text. -/
def userMessage (text : String) : LLM.Message :=
  { role := "user", content := text }

/-- The assistant message processUserText appends for the generated content. -/
def assistantMessage (content : String) : LLM.Message :=
  { role := "assistant", content := content }

/-- The history update of one round: append the user and assistant messages;
past 21 entries, keep the first entry plus the last 20 (the Go
`append(h[:1], h[len(h)-20:]...)`, whose forward copy over the shared backing
array realizes exactly these values). -/
def historyAfterRound (h : List LLM.Message) (userText assistantText : String) :
    List LLM.Message :=
  let h2 := h ++ [userMessage userText, assistantMessage assistantText]
  if 21 < h2.length then h2.take 1 ++ h2.drop (h2.length - 20) else h2

/-- The audio portion of processUserText: a non-empty synthesis result is sent
in 32 KiB chunks, each followed by the 50 ms pacing sleep; otherwise the fixed
1 s simulated-TTS delay is taken. -/
def audioSendActions (audioData : List Nat) : List Action :=
  if audioData.length ≠ 0 then
    ((chunkLoop 32768 audioData).map fun c =>
      [Action.audioChunkSend c, Action.delayMs 50]).flatten
  else
    [Action.delayMs 1000]

/-- processUserText: append the user message, settle the response from the LLM
outcome, append the assistant message and compact, send speaking notice and
the text response, deliver audio (or the fallback delay), send the idle notice
and return to Idle with audioFrameCount reset. -/
def processUserText (text : String) (outcome : LLMOutcome) (ttsOutcome : TTSOutcome)
    (s : Session) : Session × List Action :=
  let resp := llmRoundResponse outcome
  let audioData : List Nat :=
    match ttsOutcome with
    | TTSOutcome.synthesized d => d
    | _ => []
  ({ s with
      chatHistory := historyAfterRound s.chatHistory text resp
      currentState := ListenState.idle
      audioFrameCount := 0 },
    [Action.listenNotice ListenState.speaking, Action.textResponse resp]
      ++ audioSendActions audioData
      ++ [Action.listenNotice ListenState.idle])

/-- One full generation round as the device observes it: the entry into
Thinking (HandleTextMessage's text branch or processUserSpeech, both of which
send the thinking notice and set Thinking) followed by the spawned
processUserText. -/
def runRound (text : String) (outcome : LLMOutcome) (ttsOutcome : TTSOutcome)
    (s : Session) : Session × List Action :=
  let s1 := { s with currentState := ListenState.thinking }
  let r := processUserText text outcome ttsOutcome s1
  (r.1, Action.listenNotice ListenState.thinking :: r.2)

/-- One wake-up of the runSilenceDetection ticker at time now: fire
processUserSpeech when listening, strictly more than silenceDuration has
elapsed since the last audio frame, and enough frames accumulated.  The Bool
records whether this tick fired. -/
def silenceTick (now : Nat) (s : Session) : Session × Bool :=
  if s.currentState = ListenState.listening ∧
      s.silenceDuration < now - s.lastAudioTime ∧
      s.minAudioFrames ≤ s.audioFrameCount then
    ((processUserSpeech s).1, true)
  else
    (s, false)

/-- Run the silence detector over a list of tick instants, counting how many
ticks fired (no other event intervenes between the ticks). -/
def runTicks : List Nat → Session → Session × Nat
  | [], s => (s, 0)
  | t :: ts, s =>
    let r := silenceTick t s
    let r2 := runTicks ts r.1
    (r2.1, (if r.2 then 1 else 0) + r2.2)

/-- The first n wake-ups of the 100 ms ticker after time t0. -/
def tickTimes (t0 : Nat) : Nat → List Nat
  | 0 => []
  | n + 1 => tickTimes t0 n ++ [t0 + 100 * (n + 1)]

/-- The listen-state notice carried by an action, if any. -/
def noticeOf : Action → Option ListenState
  | Action.listenNotice st => some st
  | _ => none

/-- The text response carried by an action, if any. -/
def textOf : Action → Option String
  | Action.textResponse t => some t
  | _ => none

/-- The binary audio chunk carried by an action, if any (echoes excluded:
those never occur inside a round). -/
def audioOf : Action → Option (List Nat)
  | Action.audioChunkSend d => some d
  | _ => none

end Conv

/-! Concrete instances used to evaluate the theorems on explicit inputs. -/

/-- A Listening session that accumulated 5 audio frames (below the 20-frame
minimum), with the default thresholds of NewConversationManager. -/
def stopCexSession : Conv.Session :=
  { currentState := ListenState.listening
    audioFrameCount := 5
    totalAudioBytes := 1600
    lastAudioTime := 0
    silenceDuration := 1500
    minAudioFrames := 20
    chatHistory := [{ role := "system", content := Conv.systemPrompt }]
    deviceID := "d"
    clientID := "c" }

/-- A Listening session that accumulated 25 audio frames, the last at time 0,
with the default thresholds of NewConversationManager. -/
def listeningSession25 : Conv.Session :=
  { currentState := ListenState.listening
    audioFrameCount := 25
    totalAudioBytes := 8000
    lastAudioTime := 0
    silenceDuration := 1500
    minAudioFrames := 20
    chatHistory := [{ role := "system", content := Conv.systemPrompt }]
    deviceID := "d"
    clientID := "c" }

/-- An llm registry holding one provider on which Initialize has not run. -/
def uninitLLM : LLM.LLMManager Unit :=
  { providers := [("mock", ())], initialized := false, defaultProvider := "mock" }

/-- An initialized llm registry whose default name keys no entry. -/
def initLLMNoDefault : LLM.LLMManager Unit :=
  { providers := [], initialized := true, defaultProvider := "mock" }

/-- A tts registry holding one provider on which Initialize has not run. -/
def uninitTTS : TTS.TTSManager Unit :=
  { providers := [("edge", ())], initialized := false, defaultProvider := "edge" }

/-- An initialized tts registry whose default name keys no entry. -/
def initTTSNoDefault : TTS.TTSManager Unit :=
  { providers := [], initialized := true, defaultProvider := "edge" }

/-- A fresh (never-registered) llm registry, as built by NewLLMManager. -/
def emptyLLM : LLM.LLMManager Unit :=
  { providers := [], initialized := false, defaultProvider := "" }

/-- A fresh (never-registered) tts registry, as built by NewTTSManager. -/
def emptyTTS : TTS.TTSManager Unit :=
  { providers := [], initialized := false, defaultProvider := "" }

/-- An initialized mock llm provider. -/
def mockReady : LLM.MockProvider :=
  { initialized := true, name := "mock" }

/-! Helper lemmas about the registry association list. -/

theorem lookup_insertProvider_self {α : Type} (ps : List (String × α)) (name : String) (p : α) :
    LLM.lookupProvider (LLM.insertProvider ps name p) name = some p := by
  induction ps with
  | nil => simp [LLM.insertProvider, LLM.lookupProvider]
  | cons kv rest ih =>
    by_cases h : kv.1 = name <;>
      simp [LLM.insertProvider, LLM.lookupProvider, h, ih]

theorem keys_insertProvider_mem {α : Type} (ps : List (String × α)) (name : String) (p : α)
    (h : name ∈ ps.map Prod.fst) :
    (LLM.insertProvider ps name p).map Prod.fst = ps.map Prod.fst := by
  induction ps with
  | nil => simp at h
  | cons kv rest ih =>
    by_cases hk : kv.1 = name
    · simp [LLM.insertProvider, hk]
    · have hr : name ∈ rest.map Prod.fst := by
        rw [List.map_cons] at h
        rcases List.mem_cons.mp h with h1 | h1
        · exact absurd h1.symm hk
        · exact h1
      simp [LLM.insertProvider, hk, ih hr]

theorem keys_insertProvider_not_mem {α : Type} (ps : List (String × α)) (name : String) (p : α)
    (h : name ∉ ps.map Prod.fst) :
    (LLM.insertProvider ps name p).map Prod.fst = ps.map Prod.fst ++ [name] := by
  induction ps with
  | nil => simp [LLM.insertProvider]
  | cons kv rest ih =>
    simp only [List.map_cons, List.mem_cons, not_or] at h
    have hk : kv.1 ≠ name := fun he => h.1 he.symm
    simp [LLM.insertProvider, hk, ih h.2]

theorem keys_nodup_insertProvider {α : Type} (ps : List (String × α)) (name : String) (p : α)
    (h : (ps.map Prod.fst).Nodup) :
    ((LLM.insertProvider ps name p).map Prod.fst).Nodup := by
  by_cases hm : name ∈ ps.map Prod.fst
  · rw [keys_insertProvider_mem ps name p hm]; exact h
  · rw [keys_insertProvider_not_mem ps name p hm]
    simp [List.nodup_append, h, hm]

theorem countP_fst_eq_count {α : Type} (ps : List (String × α)) (name : String) :
    ps.countP (fun kv => kv.1 == name) = (ps.map Prod.fst).count name := by
  induction ps with
  | nil => simp
  | cons kv rest ih =>
    by_cases hk : kv.1 = name <;>
      simp [List.countP_cons, List.count_cons, hk, ih]

theorem countP_insertProvider {α : Type} (ps : List (String × α)) (name : String) (p : α)
    (h : (ps.map Prod.fst).Nodup) :
    (LLM.insertProvider ps name p).countP (fun kv => kv.1 == name) = 1 := by
  rw [countP_fst_eq_count]
  by_cases hm : name ∈ ps.map Prod.fst
  · rw [keys_insertProvider_mem ps name p hm]
    exact List.count_eq_one_of_mem h hm
  · rw [keys_insertProvider_not_mem ps name p hm]
    rw [List.count_append, List.count_eq_zero_of_not_mem hm]
    simp

theorem registerProvider_default_stable {α : Type} (m : LLM.LLMManager α)
    (n : String) (p1 p2 : α) :
    ((m.registerProvider n p1).registerProvider n p2).defaultProvider =
      (m.registerProvider n p1).defaultProvider := by
  by_cases h : m.defaultProvider = "" <;>
    by_cases hn : n = "" <;>
      simp [LLM.LLMManager.registerProvider, h, hn]

theorem tts_registerProvider_default_stable {β : Type} (t : TTS.TTSManager β)
    (n : String) (q1 q2 : β) :
    ((t.registerProvider n q1).registerProvider n q2).defaultProvider =
      (t.registerProvider n q1).defaultProvider := by
  by_cases h : t.defaultProvider = "" <;>
    by_cases hn : n = "" <;>
      simp [TTS.TTSManager.registerProvider, h, hn]

/-- C8: for both provider registries, registering the same provider name twice
leaves exactly one entry under that name (the last registered provider wins)
and does not change which name is the default; and registering the first
provider into an empty registry makes that provider the default. -/
theorem c8_register_idempotent_default {α β : Type}
    (m : LLM.LLMManager α) (n : String) (p1 p2 : α)
    (hm : (m.providers.map Prod.fst).Nodup)
    (e : LLM.LLMManager α) (he : e.defaultProvider = "") (en : String) (q : α)
    (t : TTS.TTSManager β) (tn : String) (q1 q2 : β)
    (ht : (t.providers.map Prod.fst).Nodup)
    (te : TTS.TTSManager β) (hte : te.defaultProvider = "") (ten : String) (r : β) :
    (((m.registerProvider n p1).registerProvider n p2).providers.countP
        (fun kv => kv.1 == n)) = 1 ∧
    LLM.lookupProvider ((m.registerProvider n p1).registerProvider n p2).providers n
      = some p2 ∧
    ((m.registerProvider n p1).registerProvider n p2).defaultProvider =
      (m.registerProvider n p1).defaultProvider ∧
    (e.registerProvider en q).defaultProvider = en ∧
    (((t.registerProvider tn q1).registerProvider tn q2).providers.countP
        (fun kv => kv.1 == tn)) = 1 ∧
    LLM.lookupProvider ((t.registerProvider tn q1).registerProvider tn q2).providers tn
      = some q2 ∧
    ((t.registerProvider tn q1).registerProvider tn q2).defaultProvider =
      (t.registerProvider tn q1).defaultProvider ∧
    (te.registerProvider ten r).defaultProvider = ten := by
  refine ⟨?_, ?_, registerProvider_default_stable m n p1 p2, ?_,
          ?_, ?_, tts_registerProvider_default_stable t tn q1 q2, ?_⟩
  · exact countP_insertProvider _ n p2 (keys_nodup_insertProvider m.providers n p1 hm)
  · exact lookup_insertProvider_self _ n p2
  · simp [LLM.LLMManager.registerProvider, he]
  · exact countP_insertProvider _ tn q2 (keys_nodup_insertProvider t.providers tn q1 ht)
  · exact lookup_insertProvider_self _ tn q2
  · simp [TTS.TTSManager.registerProvider, hte]

/-- C8 witness: the theorem evaluated on concrete one-provider registries. -/
theorem c8_register_idempotent_default_witness :
    ((emptyLLM.providers.map Prod.fst).Nodup ∧ emptyLLM.defaultProvider = "") ∧
    (((emptyLLM.registerProvider "a" ()).registerProvider "a" ()).providers.countP
        (fun kv => kv.1 == "a")) = 1 := by
  refine ⟨⟨by decide, rfl⟩, ?_⟩
  exact (c8_register_idempotent_default emptyLLM "a" () () (by decide)
    emptyLLM rfl "b" () emptyTTS "x" () () (by decide) emptyTTS rfl "y" ()).1

/-- C7 counterexample: on an uninitialized llm registry holding a provider
named "mock", GetProvider("mock") succeeds, so get(name) does not fail with
NotInitialized when initializeAll has not succeeded, contrary to the claim. -/
theorem c7_get_provider_uninitialized_cex :
    uninitLLM.initialized = false ∧
    uninitLLM.getProvider "mock" = Except.ok () ∧
    uninitTTS.initialized = false ∧
    uninitTTS.getProvider "edge" = Except.ok () := ⟨rfl, rfl, rfl, rfl⟩

/-- C7 amended: default dispatch (Chat / StreamChat / SynthesizeSpeech) fails
with NotInitialized before a successful initializeAll and with
ProviderNotFound when initialized but the default name keys no entry; whereas
get(name) performs no initialization check and fails with ProviderNotFound
exactly when the requested name (for tts, the default name when "" is
requested) keys no entry. -/
theorem c7_registry_error_dispatch {α β : Type}
    (m1 : LLM.LLMManager α) (h1 : m1.initialized = false)
    (m2 : LLM.LLMManager α) (h2 : m2.initialized = true)
    (h2d : LLM.lookupProvider m2.providers m2.defaultProvider = none)
    (m3 : LLM.LLMManager α) (name : String)
    (h3 : LLM.lookupProvider m3.providers name = none)
    (t1 : TTS.TTSManager β) (k1 : t1.initialized = false)
    (t2 : TTS.TTSManager β) (k2 : t2.initialized = true)
    (k2d : LLM.lookupProvider t2.providers t2.defaultProvider = none)
    (t3 : TTS.TTSManager β) (tname : String) (kn : tname ≠ "")
    (k3 : LLM.lookupProvider t3.providers tname = none) :
    m1.chat = Except.error LLM.LLMErr.notInitialized ∧
    m1.streamChat = Except.error LLM.LLMErr.notInitialized ∧
    m2.chat = Except.error LLM.LLMErr.providerNotFound ∧
    m2.streamChat = Except.error LLM.LLMErr.providerNotFound ∧
    m3.getProvider name = Except.error LLM.LLMErr.providerNotFound ∧
    t1.synthesizeSpeech = Except.error TTS.TTSErr.notInitialized ∧
    t2.synthesizeSpeech = Except.error TTS.TTSErr.providerNotFound ∧
    t3.getProvider tname = Except.error TTS.TTSErr.providerNotFound := by
  refine ⟨?_, ?_, ?_, ?_, ?_, ?_, ?_, ?_⟩
  · simp [LLM.LLMManager.chat, h1]
  · simp [LLM.LLMManager.streamChat, h1]
  · simp [LLM.LLMManager.chat, h2, h2d]
  · simp [LLM.LLMManager.streamChat, h2, h2d]
  · simp [LLM.LLMManager.getProvider, h3]
  · simp [TTS.TTSManager.synthesizeSpeech, k1]
  · simp [TTS.TTSManager.synthesizeSpeech, k2, k2d]
  · simp [TTS.TTSManager.getProvider, kn, k3]

/-- C7 witness: the amended dispatch behavior on concrete registries. -/
theorem c7_registry_error_dispatch_witness :
    uninitLLM.chat = Except.error LLM.LLMErr.notInitialized ∧
    initLLMNoDefault.chat = Except.error LLM.LLMErr.providerNotFound ∧
    initTTSNoDefault.synthesizeSpeech = Except.error TTS.TTSErr.providerNotFound := by
  have h := c7_registry_error_dispatch uninitLLM rfl initLLMNoDefault rfl rfl
    initLLMNoDefault "absent" rfl uninitTTS rfl initTTSNoDefault rfl rfl
    initTTSNoDefault "absent" (by decide) rfl
  exact ⟨h.1, h.2.2.1, h.2.2.2.2.2.2.1⟩

/-- C9: an inbound text frame that is not valid JSON, has no string "type"
field, or carries an unrecognized type is ignored: the handler returns (with
the Go function's nil error) and the session — phase, audioFrameCount,
totalAudioBytes, history — is unchanged, with no output emitted. -/
theorem c9_unrecognized_frames_ignored (s : Conv.Session) (t : String)
    (tf df cf : Option String)
    (h1 : t ≠ "hello") (h2 : t ≠ "listening_start")
    (h3 : t ≠ "listening_stop") (h4 : t ≠ "text") :
    Conv.handleTextMessage Conv.TextFrame.invalidJson s = (s, []) ∧
    Conv.handleTextMessage Conv.TextFrame.jsonNoType s = (s, []) ∧
    Conv.handleTextMessage (Conv.TextFrame.jsonMsg t tf df cf) s = (s, []) := by
  refine ⟨rfl, rfl, ?_⟩
  simp [Conv.handleTextMessage, h1, h2, h3, h4]

/-- C9 witness: a frame of the unrecognized type "spectrogram" leaves a
concrete session untouched. -/
theorem c9_unrecognized_frames_ignored_witness :
    Conv.handleTextMessage (Conv.TextFrame.jsonMsg "spectrogram" none none none)
      stopCexSession = (stopCexSession, []) :=
  (c9_unrecognized_frames_ignored stopCexSession "spectrogram" none none none
    (by decide) (by decide) (by decide) (by decide)).2.2

/-- C3: an explicit listening-stop received while audioFrameCount is below
minAudioFrames sends the session to Idle with no output action at all — in
particular processUserText is never spawned, so the generation backend
(LLM Chat / StreamChat) is not invoked for that round. -/
theorem c3_insufficient_stop_no_generation (s : Conv.Session)
    (tf df cf : Option String)
    (h : s.audioFrameCount < s.minAudioFrames) :
    Conv.handleTextMessage (Conv.TextFrame.jsonMsg "listening_stop" tf df cf) s =
      ({ s with currentState := ListenState.idle }, []) ∧
    (Conv.handleTextMessage (Conv.TextFrame.jsonMsg "listening_stop" tf df cf) s).1.currentState
      = ListenState.idle ∧
    ∀ txt, Conv.Action.spawnProcessText txt ∉
      (Conv.handleTextMessage (Conv.TextFrame.jsonMsg "listening_stop" tf df cf) s).2 := by
  have hneg : ¬ s.minAudioFrames ≤ s.audioFrameCount := by omega
  refine ⟨?_, ?_, ?_⟩ <;> simp [Conv.handleTextMessage, hneg]

/-- C3 witness: the insufficient-frames stop on a concrete 5-frame session. -/
theorem c3_insufficient_stop_no_generation_witness :
    stopCexSession.audioFrameCount < stopCexSession.minAudioFrames ∧
    (Conv.handleTextMessage (Conv.TextFrame.jsonMsg "listening_stop" none none none)
        stopCexSession).1.currentState = ListenState.idle :=
  ⟨by decide, (c3_insufficient_stop_no_generation stopCexSession none none none
    (by decide)).2.1⟩

/-- C2 counterexample: the explicit listening-stop with 5 < 20 accumulated
frames is a phase transition into Idle that leaves audioFrameCount at 5, so
audioFrameCount is not reset to 0 on every transition into Idle. -/
theorem c2_idle_reset_cex :
    stopCexSession.audioFrameCount = 5 ∧
    (Conv.handleTextMessage (Conv.TextFrame.jsonMsg "listening_stop" none none none)
        stopCexSession).1.currentState = ListenState.idle ∧
    (Conv.handleTextMessage (Conv.TextFrame.jsonMsg "listening_stop" none none none)
        stopCexSession).1.audioFrameCount ≠ 0 := by
  refine ⟨rfl, rfl, ?_⟩
  have h : (Conv.handleTextMessage (Conv.TextFrame.jsonMsg "listening_stop" none none none)
      stopCexSession).1.audioFrameCount = 5 := rfl
  omega

/-- C2 amended: audioFrameCount is reset to 0 on the transition into Idle that
completes a generation round (end of processUserText); the transition into
Idle on an explicit stop with insufficient frames leaves audioFrameCount (and
totalAudioBytes) unchanged. -/
theorem c2_idle_reset_amended (s1 : Conv.Session) (text : String)
    (outcome : Conv.LLMOutcome) (tts : Conv.TTSOutcome)
    (s2 : Conv.Session) (tf df cf : Option String)
    (h2 : s2.audioFrameCount < s2.minAudioFrames) :
    ((Conv.processUserText text outcome tts s1).1.currentState = ListenState.idle ∧
      (Conv.processUserText text outcome tts s1).1.audioFrameCount = 0) ∧
    ((Conv.handleTextMessage (Conv.TextFrame.jsonMsg "listening_stop" tf df cf) s2).1.currentState
        = ListenState.idle ∧
      (Conv.handleTextMessage (Conv.TextFrame.jsonMsg "listening_stop" tf df cf) s2).1.audioFrameCount
        = s2.audioFrameCount) := by
  have hneg : ¬ s2.minAudioFrames ≤ s2.audioFrameCount := by omega
  refine ⟨⟨rfl, rfl⟩, ?_, ?_⟩ <;> simp [Conv.handleTextMessage, hneg]

/-- C2 witness: the amended reset behavior on concrete sessions. -/
theorem c2_idle_reset_amended_witness :
    (Conv.processUserText "hi" (Conv.LLMOutcome.chatSuccess "ok") Conv.TTSOutcome.noManager
        stopCexSession).1.audioFrameCount = 0 ∧
    (Conv.handleTextMessage (Conv.TextFrame.jsonMsg "listening_stop" none none none)
        stopCexSession).1.audioFrameCount = stopCexSession.audioFrameCount :=
  ⟨(c2_idle_reset_amended stopCexSession "hi" (Conv.LLMOutcome.chatSuccess "ok")
      Conv.TTSOutcome.noManager stopCexSession none none none (by decide)).1.2,
   (c2_idle_reset_amended stopCexSession "hi" (Conv.LLMOutcome.chatSuccess "ok")
      Conv.TTSOutcome.noManager stopCexSession none none none (by decide)).2.2⟩

/-! History compaction (C4). -/

theorem historyAfterRound_inv (x : LLM.Message) (t : List LLM.Message) (u a : String)
    (hle : (x :: t).length ≤ 21) :
    (Conv.historyAfterRound (x :: t) u a).head? = some x ∧
    (Conv.historyAfterRound (x :: t) u a).length ≤ 21 := by
  simp only [Conv.historyAfterRound]
  split
  · rename_i hgt
    constructor
    · simp [List.cons_append]
    · simp only [List.length_append, List.length_cons] at hgt
      simp only [List.length_append, List.length_take, List.length_drop,
        List.length_cons]
      omega
  · rename_i hng
    constructor
    · simp [List.cons_append]
    · simp only [List.length_append, List.length_cons] at hng ⊢
      omega

theorem rounds_foldl_inv (rounds : List (String × String)) :
    ∀ (x : LLM.Message) (t : List LLM.Message), (x :: t).length ≤ 21 →
      (rounds.foldl (fun acc r => Conv.historyAfterRound acc r.1 r.2) (x :: t)).head?
        = some x ∧
      (rounds.foldl (fun acc r => Conv.historyAfterRound acc r.1 r.2) (x :: t)).length
        ≤ 21 := by
  induction rounds with
  | nil => exact fun x t hle => ⟨rfl, hle⟩
  | cons r rs ih =>
    intro x t hle
    have h1 := historyAfterRound_inv x t r.1 r.2 hle
    cases e : Conv.historyAfterRound (x :: t) r.1 r.2 with
    | nil => rw [e] at h1; exact absurd h1.1 (by simp)
    | cons y ys =>
      rw [e] at h1
      have hyx : y = x := by simpa using h1.1
      have hlen : (y :: ys).length ≤ 21 := h1.2
      have := ih y ys hlen
      rw [List.foldl_cons, e]
      exact ⟨this.1.trans (by rw [hyx]), this.2⟩

/-- C4: iterating completed generation rounds from the single system-prompt
history always leaves entry 0 equal to the system message with total length
at most 21; and a round that pushes the length beyond 21 compacts to the
first (system) entry plus the most recent 20 entries, for a total of 21. -/
theorem c4_history_compaction (sys : LLM.Message) (rounds : List (String × String))
    (h : List LLM.Message) (u a : String) (hne : h ≠ [])
    (hover : 21 < (h ++ [Conv.userMessage u, Conv.assistantMessage a]).length) :
    ((rounds.foldl (fun acc r => Conv.historyAfterRound acc r.1 r.2) [sys]).head?
        = some sys ∧
     (rounds.foldl (fun acc r => Conv.historyAfterRound acc r.1 r.2) [sys]).length
        ≤ 21) ∧
    (Conv.historyAfterRound h u a =
      h.take 1 ++
        (h ++ [Conv.userMessage u, Conv.assistantMessage a]).drop
          ((h ++ [Conv.userMessage u, Conv.assistantMessage a]).length - 20) ∧
     (Conv.historyAfterRound h u a).length = 21) := by
  refine ⟨rounds_foldl_inv rounds sys [] (by simp), ?_, ?_⟩
  · simp only [Conv.historyAfterRound, if_pos hover]
    have h1 : 1 ≤ h.length := List.length_pos.mpr hne
    rw [List.take_append_eq_append_take]
    have h0 : (1 - h.length) = 0 := by omega
    rw [h0, List.take_zero, List.append_nil]
  · simp only [Conv.historyAfterRound, if_pos hover]
    simp only [List.length_append, List.length_take, List.length_drop,
      List.length_cons] at hover ⊢
    omega

/-- C4 witness: a compacting round from a full 20-entry history, and eleven
rounds iterated from the initial single-system-message history. -/
theorem c4_history_compaction_witness :
    ((List.replicate 11 ("u", "a")).foldl
        (fun acc r => Conv.historyAfterRound acc r.1 r.2)
        [({ role := "system", content := Conv.systemPrompt } : LLM.Message)]).head?
      = some ({ role := "system", content := Conv.systemPrompt } : LLM.Message) :=
  (c4_history_compaction
    ({ role := "system", content := Conv.systemPrompt } : LLM.Message)
    (List.replicate 11 ("u", "a"))
    (List.replicate 20 (Conv.userMessage "x")) "u" "a"
    (by decide) (by simp)).1.1

/-! Chunking lemmas (C6, and splitIntoChunks for C10). -/

theorem chunkLoop_nil {α : Type} (n : Nat) : chunkLoop n ([] : List α) = [] := by
  rw [chunkLoop]
  split <;> rfl

theorem chunkLoop_cons {α : Type} (n : Nat) (hn : n ≠ 0) (x : α) (xs : List α) :
    chunkLoop n (x :: xs) = (x :: xs).take n :: chunkLoop n ((x :: xs).drop n) := by
  conv_lhs => rw [chunkLoop]
  rw [dif_neg hn]

theorem chunkLoop_flatten {α : Type} (n : Nat) (hn : 0 < n) (l : List α) :
    (chunkLoop n l).flatten = l := by
  generalize hk : l.length = k
  induction k using Nat.strong_induction_on generalizing l with
  | _ k ih =>
    cases l with
    | nil => simp [chunkLoop_nil]
    | cons x xs =>
      rw [chunkLoop_cons n (by omega) x xs, List.flatten_cons]
      have hlt : ((x :: xs).drop n).length < k := by
        subst hk
        simp only [List.length_drop, List.length_cons]
        omega
      rw [ih _ hlt _ rfl, List.take_append_drop]

theorem chunkLoop_sizes {α : Type} (n : Nat) (l : List α) :
    ∀ c ∈ chunkLoop n l, c.length ≤ n := by
  generalize hk : l.length = k
  induction k using Nat.strong_induction_on generalizing l with
  | _ k ih =>
    cases l with
    | nil => simp [chunkLoop_nil]
    | cons x xs =>
      by_cases hn : n = 0
      · subst hn
        rw [chunkLoop]
        simp
      · rw [chunkLoop_cons n hn x xs]
        intro c hc
        rcases List.mem_cons.mp hc with rfl | hc
        · exact List.length_take_le n (x :: xs)
        · have hlt : ((x :: xs).drop n).length < k := by
            subst hk
            simp only [List.length_drop, List.length_cons]
            omega
          exact ih _ hlt _ rfl c hc

theorem chunkLoop_length {α : Type} (n : Nat) (hn : 0 < n) (l : List α) :
    (chunkLoop n l).length = (l.length + (n - 1)) / n := by
  generalize hk : l.length = k
  induction k using Nat.strong_induction_on generalizing l with
  | _ k ih =>
    cases l with
    | nil =>
      rw [chunkLoop_nil, ← hk]
      simp only [List.length_nil, Nat.zero_add]
      symm
      exact Nat.div_eq_of_lt (by omega)
    | cons x xs =>
      rw [chunkLoop_cons n (by omega) x xs, ← hk]
      by_cases hcase : (x :: xs).length ≤ n
      · have hdrop : (x :: xs).drop n = [] := List.drop_eq_nil_of_le hcase
        rw [hdrop, chunkLoop_nil]
        have hd : ((x :: xs).length + (n - 1)) / n = 1 := by
          have h1 : 1 * n ≤ (x :: xs).length + (n - 1) := by
            simp only [List.length_cons] at hcase ⊢
            omega
          have h2 : (x :: xs).length + (n - 1) < (1 + 1) * n := by
            simp only [List.length_cons] at hcase ⊢
            omega
          exact Nat.div_eq_of_lt_le h1 h2
        rw [hd]
        rfl
      · have hlt : ((x :: xs).drop n).length < k := by
          subst hk
          simp only [List.length_drop, List.length_cons]
          omega
        rw [List.length_cons, ih _ hlt _ rfl]
        simp only [List.length_drop]
        have harith : ((x :: xs).length + (n - 1)) =
            (((x :: xs).length - n) + (n - 1)) + n := by
          simp only [List.length_cons] at hcase ⊢
          omega
        rw [harith, Nat.add_div_right _ hn]

/-! The audio delivery part of processUserText emits no notices and no text
responses, and its binary payloads are exactly the chunks. -/

theorem filterMap_audioOf_chunks (L : List (List Nat)) :
    ((L.map fun c => [Conv.Action.audioChunkSend c, Conv.Action.delayMs 50]).flatten).filterMap
      Conv.audioOf = L := by
  induction L with
  | nil => rfl
  | cons c rest ih =>
    simp [List.filterMap_cons, Conv.audioOf, ih]

theorem audioSendActions_audio (d : List Nat) (hd : d.length ≠ 0) :
    (Conv.audioSendActions d).filterMap Conv.audioOf = chunkLoop 32768 d := by
  unfold Conv.audioSendActions
  rw [if_pos hd]
  exact filterMap_audioOf_chunks _

theorem audioSendActions_no_notice (d : List Nat) :
    (Conv.audioSendActions d).filterMap Conv.noticeOf = [] := by
  unfold Conv.audioSendActions
  split
  · rename_i hd
    induction chunkLoop 32768 d with
    | nil => rfl
    | cons c rest ih => simpa [List.filterMap_cons, Conv.noticeOf] using ih
  · rfl

theorem audioSendActions_no_text (d : List Nat) :
    (Conv.audioSendActions d).filterMap Conv.textOf = [] := by
  unfold Conv.audioSendActions
  split
  · rename_i hd
    induction chunkLoop 32768 d with
    | nil => rfl
    | cons c rest ih => simpa [List.filterMap_cons, Conv.textOf] using ih
  · rfl

/-- C6: a synthesized audio payload of N > 0 bytes is delivered (all writes
succeeding) as ceil(N / 32768) binary chunks, each of at most 32768 bytes,
whose in-order concatenation is exactly the original payload; and the binary
sends processUserText emits are exactly those chunks in order. -/
theorem c6_audio_chunk_round_trip (data : List Nat) (hne : data ≠ [])
    (s : Conv.Session) (text : String) (outcome : Conv.LLMOutcome) :
    (chunkLoop 32768 data).length = (data.length + 32767) / 32768 ∧
    (∀ c ∈ chunkLoop 32768 data, c.length ≤ 32768) ∧
    (chunkLoop 32768 data).flatten = data ∧
    (Conv.processUserText text outcome (Conv.TTSOutcome.synthesized data) s).2.filterMap
      Conv.audioOf = chunkLoop 32768 data := by
  refine ⟨?_, chunkLoop_sizes 32768 data,
    chunkLoop_flatten 32768 (by omega) data, ?_⟩
  · exact chunkLoop_length 32768 (by omega) data
  · have hlen : data.length ≠ 0 := fun h0 => hne (List.length_eq_zero.mp h0)
    simp only [Conv.processUserText, List.filterMap_append, List.filterMap_cons,
      Conv.audioOf, audioSendActions_audio data hlen]
    simp

/-- C6 witness: a concrete three-byte payload. -/
theorem c6_audio_chunk_round_trip_witness :
    (chunkLoop 32768 [1, 2, 3]).flatten = [1, 2, 3] :=
  (c6_audio_chunk_round_trip [1, 2, 3] (by decide) stopCexSession "t"
    (Conv.LLMOutcome.chatSuccess "ok")).2.2.1

/-- C5: when the generation backend errors (StreamChat fails, or Chat fails
after a successful stream), the round still emits the thinking, speaking and
idle notices in that order, the only text response sent is the fixed apology,
and the session ends the round in Idle — it does not remain in Thinking. -/
theorem c5_generation_error_round (s : Conv.Session) (text : String)
    (outcome : Conv.LLMOutcome) (ttsOutcome : Conv.TTSOutcome)
    (hErr : outcome = Conv.LLMOutcome.streamingError ∨
            outcome = Conv.LLMOutcome.chatError) :
    (Conv.runRound text outcome ttsOutcome s).2.filterMap Conv.noticeOf =
      [ListenState.thinking, ListenState.speaking, ListenState.idle] ∧
    (Conv.runRound text outcome ttsOutcome s).2.filterMap Conv.textOf =
      [Conv.apologyText] ∧
    (Conv.runRound text outcome ttsOutcome s).1.currentState = ListenState.idle := by
  have hresp : Conv.llmRoundResponse outcome = Conv.apologyText := by
    rcases hErr with rfl | rfl <;> rfl
  refine ⟨?_, ?_, rfl⟩
  · simp [Conv.runRound, Conv.processUserText, hresp, List.filterMap_append,
      List.filterMap_cons, Conv.noticeOf, audioSendActions_no_notice]
  · simp [Conv.runRound, Conv.processUserText, hresp, List.filterMap_append,
      List.filterMap_cons, Conv.textOf, Conv.noticeOf, audioSendActions_no_text]

/-- C5 witness: a concrete failing round (stream error, no tts backend). -/
theorem c5_generation_error_round_witness :
    (Conv.runRound "hi" Conv.LLMOutcome.streamingError Conv.TTSOutcome.noManager
        stopCexSession).2.filterMap Conv.noticeOf =
      [ListenState.thinking, ListenState.speaking, ListenState.idle] :=
  (c5_generation_error_round stopCexSession "hi" Conv.LLMOutcome.streamingError
    Conv.TTSOutcome.noManager (Or.inl rfl)).1

/-! Silence detection (C1). -/

theorem silenceTick_no_fire (t : Nat) (s : Conv.Session)
    (h : t ≤ s.lastAudioTime + s.silenceDuration) :
    Conv.silenceTick t s = (s, false) := by
  unfold Conv.silenceTick
  rw [if_neg]
  intro hcond
  have := hcond.2.1
  omega

theorem silenceTick_not_listening (t : Nat) (s : Conv.Session)
    (h : s.currentState ≠ ListenState.listening) :
    Conv.silenceTick t s = (s, false) := by
  unfold Conv.silenceTick
  rw [if_neg]
  intro hcond
  exact h hcond.1

theorem runTicks_append (a b : List Nat) (s : Conv.Session) :
    Conv.runTicks (a ++ b) s =
      ((Conv.runTicks b (Conv.runTicks a s).1).1,
       (Conv.runTicks a s).2 + (Conv.runTicks b (Conv.runTicks a s).1).2) := by
  induction a generalizing s with
  | nil => simp [Conv.runTicks]
  | cons t ts ih => simp [Conv.runTicks, ih, Nat.add_assoc]

theorem runTicks_single (t : Nat) (s : Conv.Session) :
    Conv.runTicks [t] s =
      ((Conv.silenceTick t s).1, if (Conv.silenceTick t s).2 then 1 else 0) := by
  simp [Conv.runTicks]

theorem runTicks_tickTimes_fire (s : Conv.Session) (t0 : Nat)
    (hSt : s.currentState = ListenState.listening)
    (hCnt : s.minAudioFrames ≤ s.audioFrameCount)
    (hLast : s.lastAudioTime = t0) :
    ∀ n : Nat, Conv.runTicks (Conv.tickTimes t0 n) s =
      if s.silenceDuration < 100 * n
      then ({ s with currentState := ListenState.thinking }, 1)
      else (s, 0) := by
  intro n
  induction n with
  | zero =>
    rw [if_neg (by omega)]
    rfl
  | succ n ih =>
    rw [Conv.tickTimes, runTicks_append, ih]
    by_cases hp : s.silenceDuration < 100 * n
    · rw [if_pos hp, if_pos (by omega : s.silenceDuration < 100 * (n + 1))]
      have hnl : Conv.silenceTick (t0 + 100 * (n + 1))
          { s with currentState := ListenState.thinking } =
          ({ s with currentState := ListenState.thinking }, false) :=
        silenceTick_not_listening _ _ (by simp)
      rw [runTicks_single, hnl]
      simp
    · rw [if_neg hp]
      by_cases hq : s.silenceDuration < 100 * (n + 1)
      · rw [if_pos hq]
        have hfire : Conv.silenceTick (t0 + 100 * (n + 1)) s =
            ((Conv.processUserSpeech s).1, true) := by
          unfold Conv.silenceTick
          rw [if_pos]
          exact ⟨hSt, by omega, hCnt⟩
        rw [runTicks_single, hfire]
        simp [Conv.processUserSpeech]
      · rw [if_neg hq]
        have hnof : Conv.silenceTick (t0 + 100 * (n + 1)) s = (s, false) :=
          silenceTick_no_fire _ _ (by omega)
        rw [runTicks_single, hnof]
        simp

/-- C1: with silenceThreshold 1500 ms and minAudioFrames 20, a Listening
session holding 25 audio frames whose last frame arrived at time t0 never
fires the silence detector on the 100 ms ticks up to t0+1500 (so it does not
enter Thinking before 1500 ms of silence have elapsed), and across the ticks
up to t0+3000 — covering the 1600 ms quiet window and well beyond — it fires
exactly once, leaving the session in Thinking. -/
theorem c1_silence_detection (s : Conv.Session) (t0 : Nat)
    (hSt : s.currentState = ListenState.listening)
    (hCnt : s.audioFrameCount = 25)
    (hDur : s.silenceDuration = 1500)
    (hMin : s.minAudioFrames = 20)
    (hLast : s.lastAudioTime = t0) :
    (Conv.runTicks (Conv.tickTimes t0 15) s).2 = 0 ∧
    (Conv.runTicks (Conv.tickTimes t0 30) s).2 = 1 ∧
    (Conv.runTicks (Conv.tickTimes t0 30) s).1.currentState = ListenState.thinking := by
  have hge : s.minAudioFrames ≤ s.audioFrameCount := by omega
  have h15 := runTicks_tickTimes_fire s t0 hSt hge hLast 15
  have h30 := runTicks_tickTimes_fire s t0 hSt hge hLast 30
  rw [if_neg (by omega)] at h15
  rw [if_pos (by omega)] at h30
  rw [h15, h30]
  exact ⟨rfl, rfl, rfl⟩

/-- C1 witness: the concrete 25-frame listening session with last frame at 0. -/
theorem c1_silence_detection_witness :
    (Conv.runTicks (Conv.tickTimes 0 15) listeningSession25).2 = 0 ∧
    (Conv.runTicks (Conv.tickTimes 0 30) listeningSession25).2 = 1 :=
  ⟨(c1_silence_detection listeningSession25 0 rfl rfl rfl rfl rfl).1,
   (c1_silence_detection listeningSession25 0 rfl rfl rfl rfl rfl).2.1⟩

/-! MockProvider refinement (C10). -/

theorem string_mk_data (s : String) : String.mk s.data = s := rfl

theorem string_data_ne_nil (s : String) (h : s ≠ "") : s.data ≠ [] := by
  intro hd
  apply h
  have h2 : String.mk s.data = String.mk [] := by rw [hd]
  rw [string_mk_data] at h2
  exact h2

theorem string_foldl_append (l : List (List Char)) (acc : List Char) :
    (l.map String.mk).foldl (fun r s => r ++ s) (String.mk acc) =
      String.mk (acc ++ l.flatten) := by
  induction l generalizing acc with
  | nil => simp
  | cons a t ih =>
    simp only [List.map_cons, List.foldl_cons]
    rw [show String.mk acc ++ String.mk a = String.mk (acc ++ a) from rfl]
    rw [ih (acc ++ a)]
    simp [List.append_assoc]

theorem string_join_map_mk (l : List (List Char)) :
    String.join (l.map String.mk) = String.mk l.flatten := by
  have h := string_foldl_append l []
  simpa using h

theorem chunkLoop_ne_nil {α : Type} (n : Nat) (hn : n ≠ 0) (l : List α) (hl : l ≠ []) :
    chunkLoop n l ≠ [] := by
  cases l with
  | nil => exact absurd rfl hl
  | cons x xs =>
    rw [chunkLoop_cons n hn x xs]
    simp

theorem generateMockResponse_clock_free (n1 n2 n3 n4 msg : String)
    (h : LLM.usesClock msg = false) :
    LLM.generateMockResponse n1 n2 msg = LLM.generateMockResponse n3 n4 msg := by
  simp only [LLM.usesClock] at h
  simp only [LLM.generateMockResponse]
  split_ifs at h ⊢ <;> rfl

theorem generateMockResponse_ne_empty (n1 n2 msg : String)
    (h : LLM.usesClock msg = false) :
    LLM.generateMockResponse n1 n2 msg ≠ "" := by
  simp only [LLM.usesClock] at h
  simp only [LLM.generateMockResponse]
  split_ifs at h ⊢ <;> decide

theorem streamChunks_spec (c : String) (hne : c.data ≠ []) :
    LLM.streamChunks c ≠ [] ∧
    (LLM.streamChunks c).map (fun r => r.content) = LLM.splitIntoChunks c 10 ∧
    (∀ r ∈ (LLM.streamChunks c).dropLast, r.isFinal = false ∧ r.finishReason = "") ∧
    (∃ lc, (LLM.streamChunks c).getLast? = some lc ∧ lc.isFinal = true ∧
      lc.finishReason = "stop") := by
  have hL : LLM.splitIntoChunks c 10 ≠ [] := by
    simp only [LLM.splitIntoChunks]
    rw [if_neg (by decide)]
    intro hmap0
    exact chunkLoop_ne_nil 10 (by decide) c.data hne (List.map_eq_nil_iff.mp hmap0)
  have hlen : (LLM.streamChunks c).length = (LLM.splitIntoChunks c 10).length := by
    simp only [LLM.streamChunks]
    rw [List.length_map, List.enum_length]
  have hcs : LLM.streamChunks c ≠ [] := by
    intro h0
    have h1 : (LLM.splitIntoChunks c 10).length = 0 := by
      rw [← hlen, h0]
      rfl
    exact hL (List.length_eq_zero.mp h1)
  have hget : ∀ (i : Nat) (h1 : i < (LLM.streamChunks c).length)
      (h2 : i < (LLM.splitIntoChunks c 10).length),
      (LLM.streamChunks c).get ⟨i, h1⟩ =
        { content := (LLM.splitIntoChunks c 10).get ⟨i, h2⟩
          isFinal := i == (LLM.splitIntoChunks c 10).length - 1
          finishReason :=
            if i == (LLM.splitIntoChunks c 10).length - 1 then "stop" else "" } := by
    intro i h1 h2
    simp only [LLM.streamChunks, List.get_eq_getElem]
    rw [List.getElem_map, List.getElem_enum]
  refine ⟨hcs, ?_, ?_, ?_⟩
  · simp only [LLM.streamChunks]
    rw [List.map_map]
    show (LLM.splitIntoChunks c 10).enum.map Prod.snd = LLM.splitIntoChunks c 10
    exact List.enum_map_snd _
  · intro r hr
    rw [List.mem_iff_getElem] at hr
    obtain ⟨i, hi, he⟩ := hr
    have hi1 : i < (LLM.streamChunks c).length - 1 := by
      simpa [List.length_dropLast] using hi
    have h1 : i < (LLM.streamChunks c).length := by omega
    have h2 : i < (LLM.splitIntoChunks c 10).length := by omega
    rw [List.getElem_dropLast] at he
    rw [show (LLM.streamChunks c)[i] = (LLM.streamChunks c).get ⟨i, h1⟩ from rfl,
      hget i h1 h2] at he
    have hb : (i == (LLM.splitIntoChunks c 10).length - 1) = false := by
      simp only [beq_eq_false_iff_ne, ne_eq]
      omega
    rw [← he]
    constructor
    · exact hb
    · simp [hb]
  · have hpos : 0 < (LLM.streamChunks c).length := List.length_pos.mpr hcs
    have hidx : (LLM.streamChunks c).length - 1 < (LLM.streamChunks c).length := by omega
    have hidx2 : (LLM.streamChunks c).length - 1 < (LLM.splitIntoChunks c 10).length := by
      omega
    refine ⟨(LLM.streamChunks c).get ⟨(LLM.streamChunks c).length - 1, hidx⟩, ?_, ?_, ?_⟩
    · rw [List.getLast?_eq_getElem?, List.getElem?_eq_getElem hidx]
      rfl
    · rw [hget _ hidx hidx2]
      simp only [beq_iff_eq]
      omega
    · rw [hget _ hidx hidx2]
      have hb : ((LLM.streamChunks c).length - 1
          == (LLM.splitIntoChunks c 10).length - 1) = true := by
        simp only [beq_iff_eq]
        omega
      simp [hb]

/-- C10: for an initialized MockProvider and a message list whose last user
message triggers none of the clock-dependent responses, StreamChat invokes its
callback finitely many times, exactly the last chunk has IsFinal = true with
FinishReason "stop", every earlier chunk has IsFinal = false, and the
concatenation of the chunk contents equals the Content that Chat returns for
the same message list. -/
theorem c10_mock_stream_refines_chat (p : LLM.MockProvider) (hp : p.initialized = true)
    (msgs : List LLM.Message) (n1 n2 n3 n4 : String)
    (hclk : LLM.usesClock (LLM.lastUserMessage msgs) = false) :
    ∃ cs resp,
      p.streamChat n1 n2 msgs = Except.ok cs ∧
      p.chat n3 n4 msgs = Except.ok resp ∧
      cs ≠ [] ∧
      (∀ r ∈ cs.dropLast, r.isFinal = false) ∧
      (∃ lc, cs.getLast? = some lc ∧ lc.isFinal = true ∧ lc.finishReason = "stop") ∧
      resp.finishReason = "stop" ∧
      String.join (cs.map fun r => r.content) = resp.content := by
  have hd : (LLM.generateMockResponse n1 n2 (LLM.lastUserMessage msgs)).data ≠ [] :=
    string_data_ne_nil _ (generateMockResponse_ne_empty n1 n2 _ hclk)
  have hs := streamChunks_spec (LLM.generateMockResponse n1 n2 (LLM.lastUserMessage msgs)) hd
  refine ⟨LLM.streamChunks (LLM.generateMockResponse n1 n2 (LLM.lastUserMessage msgs)),
    { content := LLM.generateMockResponse n3 n4 (LLM.lastUserMessage msgs)
      finishReason := "stop" },
    ?_, ?_, hs.1, fun r hr => (hs.2.2.1 r hr).1, hs.2.2.2, rfl, ?_⟩
  · simp [LLM.MockProvider.streamChat, hp]
  · simp [LLM.MockProvider.chat, hp]
  · rw [hs.2.1]
    simp only [LLM.splitIntoChunks]
    rw [if_neg (by decide)]
    rw [string_join_map_mk, chunkLoop_flatten 10 (by omega) _, string_mk_data]
    exact generateMockResponse_clock_free n1 n2 n3 n4 _ hclk

/-- C10 witness: the refinement evaluated on a concrete initialized provider
and a one-message list that avoids the clock branches. -/
theorem c10_mock_stream_refines_chat_witness :
    mockReady.initialized = true ∧
    LLM.usesClock (LLM.lastUserMessage [{ role := "user", content := "abc" }]) = false ∧
    ∃ cs resp,
      mockReady.streamChat "t1" "d1" [{ role := "user", content := "abc" }] = Except.ok cs ∧
      mockReady.chat "t2" "d2" [{ role := "user", content := "abc" }] = Except.ok resp ∧
      cs ≠ [] ∧
      (∀ r ∈ cs.dropLast, r.isFinal = false) ∧
      (∃ lc, cs.getLast? = some lc ∧ lc.isFinal = true ∧ lc.finishReason = "stop") ∧
      resp.finishReason = "stop" ∧
      String.join (cs.map fun r => r.content) = resp.content :=
  ⟨rfl, by decide, c10_mock_stream_refines_chat mockReady rfl
    [{ role := "user", content := "abc" }] "t1" "d1" "t2" "d2" (by decide)⟩
